import Mathlib

/-!
Verification of the encoded cart-search test utility.

The repository is a small Node.js command-line script that performs a search
against an encoded server, writes the resulting identifiers into a cart,
re-queries the cart-search endpoint and diffs the two identifier lists.

This file gives a shallow embedding of the script:

* JavaScript values (as produced by JSON parsing, plus the `undefined`
  value that property lookups can yield) are modelled by `JsVal`.
* Code that can throw is modelled in `Except String`; a `.catch` handler
  corresponds to matching on the `Except` and converting errors to `none`
  (the JS `undefined` result) together with a console log line.
* The network is modelled by a `Response` value per HTTP call: the script
  never inspects anything about a response beyond `response.ok` and the
  parsed JSON body, so a response is `ok` flag plus `Option JsVal`
  (`none` = the body failed to parse, so `response.json()` rejects).
* Machine integers do not occur; all lengths are `Nat` and JSON numbers
  are embedded as `Int` (no arithmetic is performed on them).
-/

/-- JavaScript values: the results of JSON parsing, extended with the
`undefined` value that property lookups can produce. -/
inductive JsVal where
  | undefined
  | null
  | bool (b : Bool)
  | num (n : Int)
  | str (s : String)
  | arr (elems : List JsVal)
  | obj (fields : List (String × JsVal))

/-- Property lookup in a JS object: the stored value, or `undefined` when the
key is absent.  Parsed JSON objects hold each key at most once. -/
def lookupField : List (String × JsVal) → String → JsVal
  | [], _ => .undefined
  | (k, v) :: rest, key => if k = key then v else lookupField rest key

/-- Property assignment `o[key] = v` on a JS object: replace the binding if
present, otherwise append it. -/
def setField : List (String × JsVal) → String → JsVal → List (String × JsVal)
  | [], key, v => [(key, v)]
  | (k0, v0) :: rest, key, v =>
    if k0 = key then (key, v) :: rest else (k0, v0) :: setField rest key v

/-- JS property read `v[key]`: throws a `TypeError` on `undefined` and `null`,
returns the field (or `undefined`) on objects, the `length` property on
arrays and strings, and `undefined` on the remaining primitives. -/
def jsGetMem : JsVal → String → Except String JsVal
  | .undefined, _ => .error "TypeError: cannot read properties of undefined"
  | .null, _ => .error "TypeError: cannot read properties of null"
  | .obj fields, key => .ok (lookupField fields key)
  | .arr xs, key => .ok (if key = "length" then .num xs.length else .undefined)
  | .str s, key => .ok (if key = "length" then .num s.length else .undefined)
  | _, _ => .ok .undefined

/-- JS index read `v[0]` as used by `results['@graph'][0]`. -/
def jsIndexZero : JsVal → Except String JsVal
  | .undefined => .error "TypeError: cannot read properties of undefined"
  | .null => .error "TypeError: cannot read properties of null"
  | .arr xs => .ok (xs.headD .undefined)
  | .str s =>
    .ok (match s.data with
      | [] => .undefined
      | c :: _ => .str (String.mk [c]))
  | .obj fields => .ok (lookupField fields "0")
  | _ => .ok .undefined

/-- The body of `xs.map((x) => x[field])`: reads `field` off each element in
order, propagating the `TypeError` thrown on the first `undefined`/`null`
element. -/
def mapGetField (field : String) : List JsVal → Except String (List JsVal)
  | [] => .ok []
  | x :: xs => do
    let y ← jsGetMem x field
    let ys ← mapGetField field xs
    pure (y :: ys)

/-- JS call `v.map((x) => x[field])`: only arrays have a callable `map`;
`undefined`/`null` receivers throw on the property read, other values throw
because their `map` property is `undefined`. -/
def jsMapGetField (v : JsVal) (field : String) : Except String JsVal :=
  match v with
  | .arr xs => do
    let ys ← mapGetField field xs
    pure (.arr ys)
  | .undefined => .error "TypeError: cannot read properties of undefined"
  | .null => .error "TypeError: cannot read properties of null"
  | _ => .error "TypeError: map is not a function"

/-- Console string coercion of a JS value (the `%s` / template-literal view;
composite values are summarised, which main only does for display). -/
def jsDisplay : JsVal → String
  | .undefined => "undefined"
  | .null => "null"
  | .bool b => if b then "true" else "false"
  | .num n => toString n
  | .str s => s
  | .arr _ => "Array"
  | .obj _ => "Object"

/-- JS strict equality `===` restricted to the comparisons the script makes:
structural on primitives; `false` on arrays and objects (distinct references,
which is what comparing two freshly parsed JSON structures yields). -/
def jsStrictEqB : JsVal → JsVal → Bool
  | .undefined, .undefined => true
  | .null, .null => true
  | .bool a, .bool b => a == b
  | .num a, .num b => a == b
  | .str a, .str b => a == b
  | _, _ => false

/-- One HTTP exchange as the script observes it: either the fetch promise
rejected, or a response arrived with its `ok` flag and (when the body was
valid JSON) the parsed body. -/
inductive Response where
  | networkError
  | httpResponse (ok : Bool) (body : Option JsVal)

/-- What reading and JSON-parsing the keyfile can yield: a failed read
(`fs.readFile` rejects), contents that are not valid JSON (`JSON.parse`
throws), or the parsed value. -/
inductive KeyfileSrc where
  | readError
  | parseError
  | parsed (v : JsVal)

/-! ## String ordering

`_.sortBy(cart)` with no iteratee sorts by the identity criterion, comparing
with the JS `<` / `>` operators and breaking ties by original index.  On
strings, JS `<` compares sequences of UTF-16 code units lexicographically, so
we model the order through the UTF-16 encoding of each character. -/

/-- The UTF-16 code units of a character (one unit on the basic plane, a
surrogate pair above it). -/
def utf16CodeUnits (c : Char) : List Nat :=
  if c.toNat < 65536 then [c.toNat]
  else [55296 + (c.toNat - 65536) / 1024, 56320 + (c.toNat - 65536) % 1024]

/-- The UTF-16 code-unit sequence of a string. -/
def stringUtf16 (s : String) : List Nat :=
  (s.data.map utf16CodeUnits).flatten

/-- Lexicographic strict order on code-unit sequences. -/
def lexLtNat : List Nat → List Nat → Bool
  | _, [] => false
  | [], _ :: _ => true
  | a :: as, b :: bs => if a < b then true else if b < a then false else lexLtNat as bs

/-- JS `a < b` on strings. -/
def jsStrLtB (a b : String) : Bool :=
  lexLtNat (stringUtf16 a) (stringUtf16 b)

/-- The non-strict order `_.sortBy` effectively sorts by: `a` may precede `b`
iff `b < a` fails. -/
abbrev jsStrLe (a b : String) : Prop := jsStrLtB b a = false

instance : DecidableRel jsStrLe := fun a b => instDecidableEqBool (jsStrLtB b a) false

/-- JS strict (in)equality `!==` on cart items, which are strings: value
equality. -/
def strEqB (a b : String) : Bool := decide (a = b)

/-- JS `a < b` on the values compareCarts can be fed from main: strings
compare as above, numbers numerically, and every other combination the
operator leaves unordered for our purposes. -/
def jsValLtB : JsVal → JsVal → Bool
  | .str a, .str b => jsStrLtB a b
  | .num a, .num b => decide (a < b)
  | _, _ => false

/-- The corresponding sort order on JS values. -/
abbrev jsValLe (a b : JsVal) : Prop := jsValLtB b a = false

instance : DecidableRel jsValLe := fun a b => instDecidableEqBool (jsValLtB b a) false

/-! ## The Set Comparator (`compareCarts`) -/

/-- `Array.prototype.filter` with the element-and-index callback, indices
starting at `i`. -/
def filterIdxAux (p : α → Nat → Bool) : List α → Nat → List α
  | [], _ => []
  | x :: xs, i => if p x i then x :: filterIdxAux p xs (i + 1) else filterIdxAux p xs (i + 1)

/-- `Array.prototype.filter` with an element-and-index callback. -/
def filterIdx (p : α → Nat → Bool) (l : List α) : List α :=
  filterIdxAux p l 0

/-- Whether `x === l[i]` under element equality `eqB`: an out-of-range index
reads `undefined`, which is strictly unequal to every cart item. -/
def strictEqAt (eqB : α → α → Bool) (l : List α) (i : Nat) (x : α) : Bool :=
  match l[i]? with
  | some y => eqB x y
  | none => false

/-- The Set Comparator `compareCarts(cart0, cart1)`.  `none` models the JS
`false` result for different lengths; otherwise both inputs are sorted
(`_.sortBy` with the identity criterion, embedded as a stable insertion sort
by `le`) and every element of the first sorted list whose same-index
counterpart in the second differs is collected. -/
def compareCarts (le : α → α → Prop) [DecidableRel le] (eqB : α → α → Bool)
    (cart0 cart1 : List α) : Option (List α) :=
  if cart0.length = cart1.length then
    some (filterIdx
      (fun cart0Item index => !(strictEqAt eqB (List.insertionSort le cart1) index cart0Item))
      (List.insertionSort le cart0))
  else none

/-- `compareCarts` at the type it is used at by the script: identifier lists. -/
def compareCartsStr (cart0 cart1 : List String) : Option (List String) :=
  compareCarts jsStrLe strEqB cart0 cart1

/-- Pairwise walk of two lists collecting left elements whose same-index
right counterpart differs (a missing counterpart always differs).  This is
the spec formulation of the positional comparison, proved equal to the
filter-by-index form used by the code. -/
def pairwiseDiff (eqB : α → α → Bool) : List α → List α → List α
  | [], _ => []
  | x :: xs, [] => x :: pairwiseDiff eqB xs []
  | x :: xs, y :: ys =>
    if eqB x y then pairwiseDiff eqB xs ys else x :: pairwiseDiff eqB xs ys

/-- Modelled from the spec: the true symmetric difference of the two inputs
viewed as sets, i.e. the values occurring in exactly one of them (listed
with multiplicity from their side; only membership is used). -/
def symmDiffSpec (a b : List String) : List String :=
  a.filter (fun x => decide (x ∉ b)) ++ b.filter (fun x => decide (x ∉ a))

/-! ## The Auth Encoder (`keypairToAuth`)

`keypairToAuth` computes
`Basic ${Buffer.from(unescape(encodeURIComponent(key + ":" + secret))).toString(base64)}`.
Each JS builtin in the chain is embedded separately: `encodeURIComponent`
percent-encodes the UTF-8 bytes of every character outside its unreserved
set, `unescape` folds percent escapes back into characters with the escaped
code as their code point, and `Buffer.from` (with its default encoding)
re-encodes the resulting character sequence as UTF-8 before base64. -/

/-- The characters `encodeURIComponent` leaves unescaped. -/
def isUriUnreserved (c : Char) : Bool :=
  c.isAlpha || c.isDigit ||
    (['-', '_', '.', '!', '~', '*', Char.ofNat 39, '(', ')'].contains c)

/-- Uppercase hex digit of a value below 16. -/
def hexDigitUpper (n : Nat) : Char :=
  "0123456789ABCDEF".data.getD n (Char.ofNat 48)

/-- Hex digit predicate (both cases), as `unescape` accepts. -/
def isHexDigit (c : Char) : Bool :=
  c.isDigit || (decide (65 ≤ c.toNat) && decide (c.toNat ≤ 70)) ||
    (decide (97 ≤ c.toNat) && decide (c.toNat ≤ 102))

/-- Value of a hex digit. -/
def hexVal (c : Char) : Nat :=
  if c.isDigit then c.toNat - 48 else if c.toNat ≤ 70 then c.toNat - 55 else c.toNat - 87

/-- The UTF-8 bytes of one character. -/
def utf8Bytes (c : Char) : List Nat :=
  let n := c.toNat
  if n < 128 then [n]
  else if n < 2048 then [192 + n / 64, 128 + n % 64]
  else if n < 65536 then [224 + n / 4096, 128 + (n / 64) % 64, 128 + n % 64]
  else [240 + n / 262144, 128 + (n / 4096) % 64, 128 + (n / 64) % 64, 128 + n % 64]

/-- `encodeURIComponent`: unreserved characters pass through, every other
character is replaced by the `%XX` escapes of its UTF-8 bytes. -/
def encodeURIComponent (s : String) : String :=
  String.mk (s.data.flatMap (fun c =>
    if isUriUnreserved c then [c]
    else (utf8Bytes c).flatMap (fun b => ['%', hexDigitUpper (b / 16), hexDigitUpper (b % 16)])))

/-- `unescape` on a character list: `%uXXXX` and `%XX` escapes become the
character with that code; anything else passes through. -/
def unescapeChars : List Char → List Char
  | [] => []
  | '%' :: 'u' :: h1 :: h2 :: h3 :: h4 :: rest =>
    if isHexDigit h1 && isHexDigit h2 && isHexDigit h3 && isHexDigit h4 then
      Char.ofNat (((hexVal h1 * 16 + hexVal h2) * 16 + hexVal h3) * 16 + hexVal h4)
        :: unescapeChars rest
    else
      -- no escape here (a `%XX` read would need `u` to be a hex digit):
      -- `%` and `u` pass through and scanning resumes after them
      '%' :: 'u' :: unescapeChars (h1 :: h2 :: h3 :: h4 :: rest)
  | '%' :: h1 :: h2 :: rest =>
    if isHexDigit h1 && isHexDigit h2 then
      Char.ofNat (hexVal h1 * 16 + hexVal h2) :: unescapeChars rest
    else '%' :: unescapeChars (h1 :: h2 :: rest)
  | c :: rest => c :: unescapeChars rest

/-- `unescape`. -/
def unescape (s : String) : String :=
  String.mk (unescapeChars s.data)

/-- `Buffer.from(string)`: Node encodes the string with the default `utf8`
encoding, yielding its UTF-8 byte sequence. -/
def bufferFromUtf8 (s : String) : List Nat :=
  s.data.flatMap utf8Bytes

/-- The base64 alphabet. -/
def base64Alphabet : List Char :=
  "ABCDEFGHIJKLMNOPQRSTUVWXYZabcdefghijklmnopqrstuvwxyz0123456789+/".data

/-- Character of a 6-bit value. -/
def base64Digit (n : Nat) : Char :=
  base64Alphabet.getD n (Char.ofNat 65)

/-- Standard base64 encoding of a byte sequence, with `=` padding. -/
def base64Encode : List Nat → List Char
  | [] => []
  | [a] => [base64Digit (a / 4), base64Digit (a % 4 * 16), '=', '=']
  | [a, b] => [base64Digit (a / 4), base64Digit (a % 4 * 16 + b / 16),
      base64Digit (b % 16 * 4), '=']
  | a :: b :: c :: rest =>
    base64Digit (a / 4) :: base64Digit (a % 4 * 16 + b / 16)
      :: base64Digit (b % 16 * 4 + c / 64) :: base64Digit (c % 64) :: base64Encode rest

/-- The Auth Encoder: `keypairToAuth(key, secret)`. -/
def keypairToAuth (key secret : String) : String :=
  "Basic " ++ String.mk (base64Encode (bufferFromUtf8 (unescape (encodeURIComponent
    (key ++ ":" ++ secret)))))

/-! ## Decoding side of the Basic header

Modelled from the spec: "decoding the Basic header's base64 payload and
splitting on the first `:` must recover exactly `(key, secret)`", with the
payload decoded as UTF-8.  These definitions are the spec's words, used to
test the round-trip property against the encoder above. -/

/-- Index of a character in the base64 alphabet. -/
def base64ValAux : List Char → Char → Nat → Option Nat
  | [], _, _ => none
  | x :: xs, c, i => if x = c then some i else base64ValAux xs c (i + 1)

/-- 6-bit value of a base64 digit. -/
def base64Val (c : Char) : Option Nat :=
  base64ValAux base64Alphabet c 0

/-- Standard base64 decoding (with `=` padding) to a byte sequence. -/
def base64Decode : List Char → Option (List Nat)
  | [] => some []
  | [a, b, '=', '='] => do
    let va ← base64Val a
    let vb ← base64Val b
    some [va * 4 + vb / 16]
  | [a, b, c, '='] => do
    let va ← base64Val a
    let vb ← base64Val b
    let vc ← base64Val c
    some [va * 4 + vb / 16, vb % 16 * 16 + vc / 4]
  | a :: b :: c :: d :: rest => do
    let va ← base64Val a
    let vb ← base64Val b
    let vc ← base64Val c
    let vd ← base64Val d
    let tail ← base64Decode rest
    some ((va * 4 + vb / 16) :: (vb % 16 * 16 + vc / 4) :: (vc % 4 * 64 + vd) :: tail)
  | _ => none

/-- Whether a byte is a UTF-8 continuation byte. -/
def isContByte (b : Nat) : Bool :=
  decide (128 ≤ b) && decide (b < 192)

/-- UTF-8 decoding of a byte sequence into characters. -/
def utf8Decode : List Nat → Option (List Char)
  | [] => some []
  | b :: rest =>
    if b < 128 then do
      let cs ← utf8Decode rest
      some (Char.ofNat b :: cs)
    else if decide (192 ≤ b) && decide (b < 224) then
      match rest with
      | b2 :: rest2 =>
        if isContByte b2 then do
          let cs ← utf8Decode rest2
          some (Char.ofNat ((b - 192) * 64 + (b2 - 128)) :: cs)
        else none
      | [] => none
    else if decide (224 ≤ b) && decide (b < 240) then
      match rest with
      | b2 :: b3 :: rest3 =>
        if isContByte b2 && isContByte b3 then do
          let cs ← utf8Decode rest3
          some (Char.ofNat (((b - 224) * 64 + (b2 - 128)) * 64 + (b3 - 128)) :: cs)
        else none
      | _ => none
    else if decide (240 ≤ b) && decide (b < 248) then
      match rest with
      | b2 :: b3 :: b4 :: rest4 =>
        if isContByte b2 && isContByte b3 && isContByte b4 then do
          let cs ← utf8Decode rest4
          some (Char.ofNat ((((b - 240) * 64 + (b2 - 128)) * 64 + (b3 - 128)) * 64 + (b4 - 128))
            :: cs)
        else none
      | _ => none
    else none

/-- Split a character sequence at the first `:`; without a colon the whole
input is the first component. -/
def splitFirstColon : List Char → List Char × List Char
  | [] => ([], [])
  | c :: rest =>
    if c = ':' then ([], rest)
    else ((splitFirstColon rest).1.cons c, (splitFirstColon rest).2)

/-- Modelled from the spec: decode a `Basic ` header by base64-decoding its
payload, decoding the bytes as UTF-8 and splitting the decoded string on the
first colon, recovering the key and secret. -/
def specDecodeBasicAuth (header : String) : Option (String × String) :=
  match header.data with
  | 'B' :: 'a' :: 's' :: 'i' :: 'c' :: ' ' :: payload => do
    let bytes ← base64Decode payload
    let chars ← utf8Decode bytes
    let (k, s) := splitFirstColon chars
    some (String.mk k, String.mk s)
  | _ => none

/-! ## The HTTP client functions

Each client is a promise chain: the part before `.catch` is embedded in
`Except String` (a thrown value propagates), and the `.catch` handler turns
any error into the JS `undefined` result (`none`) plus a console log line.
The network and the server are abstracted by the `Response` each call
receives. -/

/-- The `.then` chain of `getSearchIds`: reject on fetch failure, throw on a
non-ok response or an unparsable body, then `results['@graph'].map((result)
=> result['@id'])`. -/
def getSearchIdsInner : Response → Except String JsVal
  | .networkError => .error "FetchError: request to search failed"
  | .httpResponse ok body =>
    if ok then
      match body with
      | none => .error "SyntaxError: unexpected token in JSON"
      | some results => do
        let graph ← jsGetMem results "@graph"
        jsMapGetField graph "@id"
    else .error "Error: not ok"

/-- The Search Client `getSearchIds`: the chain above with its `.catch`
(`console.log OBJECT LOAD ERROR`) producing `undefined` and a log. -/
def getSearchIds (r : Response) : Option JsVal × List String :=
  match getSearchIdsInner r with
  | .ok v => (some v, [])
  | .error e => (none, ["OBJECT LOAD ERROR: " ++ e])

/-- The `.then` chain of `getWriteableCartObject`: the parsed edit-frame body
is returned whole. -/
def getWriteableCartObjectInner : Response → Except String JsVal
  | .networkError => .error "FetchError: request to cart failed"
  | .httpResponse ok body =>
    if ok then
      match body with
      | none => .error "SyntaxError: unexpected token in JSON"
      | some results => .ok results
    else .error "Error: response"

/-- The Cart Reader `getWriteableCartObject`, with its `.catch`
(`console.error Retrieving writeable cart object`). -/
def getWriteableCartObject (r : Response) : Option JsVal × List String :=
  match getWriteableCartObjectInner r with
  | .ok v => (some v, [])
  | .error e => (none, ["Retrieving writeable cart object " ++ e])

/-- The `.then` chain of `writeCart`: on an ok response,
`results['@graph'][0].elements`. -/
def writeCartInner : Response → Except String JsVal
  | .networkError => .error "FetchError: request to carts failed"
  | .httpResponse ok body =>
    if ok then
      match body with
      | none => .error "SyntaxError: unexpected token in JSON"
      | some results => do
        let graph ← jsGetMem results "@graph"
        let first ← jsIndexZero graph
        jsGetMem first "elements"
    else .error "Error: not ok"

/-- The Cart Writer `writeCart`, with its `.catch`
(`console.log OBJECT LOAD ERROR`). -/
def writeCart (r : Response) : Option JsVal × List String :=
  match writeCartInner r with
  | .ok v => (some v, [])
  | .error e => (none, ["OBJECT LOAD ERROR: " ++ e])

/-- The `.then` chain of `searchCart`: same envelope extraction as the Search
Client, against the cart-search endpoint. -/
def searchCartInner : Response → Except String JsVal
  | .networkError => .error "FetchError: request to cart-search failed"
  | .httpResponse ok body =>
    if ok then
      match body with
      | none => .error "SyntaxError: unexpected token in JSON"
      | some results => do
        let graph ← jsGetMem results "@graph"
        jsMapGetField graph "@id"
    else .error "Error: response"

/-- The Cart Search Client `searchCart`, with its `.catch`
(`console.error SEARCH CART ERROR`). -/
def searchCart (r : Response) : Option JsVal × List String :=
  match searchCartInner r with
  | .ok v => (some v, [])
  | .error e => (none, ["SEARCH CART ERROR " ++ e])

/-- A response on which the soft-failure policy fires: the fetch rejected,
the HTTP status was not 2xx, or the body failed to parse. -/
def respBad : Response → Bool
  | .networkError => true
  | .httpResponse ok body => !ok || body.isNone

/-! ## The Credential Loader and the Orchestrator (`main`) -/

/-- The Credential Loader `readKeyfile`: awaits the file read and applies
`JSON.parse`; both failure modes surface as raised errors, never as a soft
result. -/
def readKeyfile : KeyfileSrc → Except String JsVal
  | .readError => .error "Error: ENOENT no such file or directory"
  | .parseError => .error "SyntaxError: unexpected token in JSON"
  | .parsed v => .ok v

/-- JS property assignment `target[field] = v` as used by
`cart.elements = itemIds`: throws on `undefined`/`null`, updates objects, and
silently leaves other values unchanged (sloppy-mode assignment to a
primitive). -/
def jsSetMem (target : Option JsVal) (field : String) (v : JsVal) : Except String JsVal :=
  match target with
  | none => .error "TypeError: cannot set properties of undefined"
  | some .null => .error "TypeError: cannot set properties of null"
  | some (.obj fields) => .ok (.obj (setField fields field v))
  | some w => .ok w

/-- JS read `x.length` where `x` may be the `undefined` soft-failure result. -/
def jsLenE : Option JsVal → Except String JsVal
  | none => .error "TypeError: cannot read properties of undefined"
  | some v => jsGetMem v "length"

/-- What `_.sortBy` iterates over: the elements of an array, the one-character
strings of a string, the values of an object, and nothing for the other
primitives. -/
def toIterable : Option JsVal → List JsVal
  | some (.arr xs) => xs
  | some (.str s) => s.data.map (fun c => .str (String.mk [c]))
  | some (.obj fields) => fields.map (fun f => f.2)
  | _ => []

/-- `compareCarts(updatedCart, searchedCart)` as invoked from `main`, where
either argument may be the `undefined` soft-failure result: reading
`.length` off `undefined` throws (uncaught in `main`), the two length values
are compared with `===`, and on equality the sorted positional diff of the
iterated values is produced exactly as in `compareCarts`. -/
def jsCompareCarts (c0 c1 : Option JsVal) : Except String (Option (List JsVal)) := do
  let l0 ← jsLenE c0
  let l1 ← jsLenE c1
  if jsStrictEqB l0 l1 then
    pure (some (filterIdx
      (fun cart0Item index =>
        !(strictEqAt jsStrictEqB (List.insertionSort jsValLe (toIterable c1)) index cart0Item))
      (List.insertionSort jsValLe (toIterable c0))))
  else pure none

/-- One run's external world: the keyfile contents, the `--key` flag, and the
response each of the four HTTP calls receives. -/
structure RunEnv where
  keyfile : KeyfileSrc
  progKey : String
  searchResp : Response
  cartReadResp : Response
  writeResp : Response
  cartSearchResp : Response

/-- The Orchestrator `main`, sequencing loader, clients and comparator.
`main()` is invoked with no handler, so any `Except.error` here is an
unhandled rejection that aborts the process; `Except.ok` carries the final
console output. -/
def mainRun (env : RunEnv) : Except String (List String) := do
  let keyFileData ← readKeyfile env.keyfile
  let entry ← jsGetMem keyFileData env.progKey
  let _server ← jsGetMem entry "server"
  let keyV ← jsGetMem entry "key"
  let secretV ← jsGetMem entry "secret"
  let _auth := keypairToAuth (jsDisplay keyV) (jsDisplay secretV)
  let itemIds := (getSearchIds env.searchResp).1
  let cart := (getWriteableCartObject env.cartReadResp).1
  let _cartMutated ← jsSetMem cart "elements" (itemIds.getD .undefined)
  let updatedCart := (writeCart env.writeResp).1
  let searchedCart := (searchCart env.cartSearchResp).1
  let differences ← jsCompareCarts updatedCart searchedCart
  match differences with
  | none => do
    let l0 ← jsLenE updatedCart
    let l1 ← jsLenE searchedCart
    pure ["Different contents Cart size: " ++ jsDisplay l0 ++ " -- Search size " ++ jsDisplay l1]
  | some diffs =>
    pure ["Differences: " ++ String.intercalate ", " (diffs.map jsDisplay)]

/-- A well-formed keyfile entry for the default `localhost` key. -/
def goodKeyfileVal : JsVal :=
  .obj [("localhost", .obj [("server", .str "https://test.encodedcc.org"),
    ("key", .str "ABC"), ("secret", .str "shh")])]

/-- Run environment whose cart read soft-fails (non-2xx edit-frame fetch)
while everything before it succeeds. -/
def envCartMissing : RunEnv where
  keyfile := .parsed goodKeyfileVal
  progKey := "localhost"
  searchResp := .httpResponse true (some (.obj [("@graph", .arr [])]))
  cartReadResp := .httpResponse false none
  writeResp := .httpResponse true (some (.obj [("@graph", .arr [.obj [("elements", .arr [])]])]))
  cartSearchResp := .httpResponse true (some (.obj [("@graph", .arr [])]))

/-- Run environment whose keyfile contents are not valid JSON. -/
def envKeyfileUnparsable : RunEnv where
  keyfile := .parseError
  progKey := "localhost"
  searchResp := .httpResponse true (some (.obj [("@graph", .arr [])]))
  cartReadResp := .httpResponse true (some (.obj [("identifier", .str "c1")]))
  writeResp := .httpResponse true (some (.obj [("@graph", .arr [.obj [("elements", .arr [])]])]))
  cartSearchResp := .httpResponse true (some (.obj [("@graph", .arr [])]))

/-- Run environment whose keyfile parses to an object that lacks the selected
environment name. -/
def envKeyAbsent : RunEnv where
  keyfile := .parsed (.obj [("production", .obj [("server", .str "https://www.encodeproject.org"),
    ("key", .str "ABC"), ("secret", .str "shh")])])
  progKey := "localhost"
  searchResp := .httpResponse true (some (.obj [("@graph", .arr [])]))
  cartReadResp := .httpResponse true (some (.obj [("identifier", .str "c1")]))
  writeResp := .httpResponse true (some (.obj [("@graph", .arr [.obj [("elements", .arr [])]])]))
  cartSearchResp := .httpResponse true (some (.obj [("@graph", .arr [])]))

/-- A soft-failing response used to witness the soft-failure policy. -/
def badResp : Response := .httpResponse false none

/-- Fields under which `envKeyAbsent` finds no `localhost` entry. -/
def prodKeyfileFields : List (String × JsVal) :=
  [("production", .obj [("server", .str "https://www.encodeproject.org"),
    ("key", .str "ABC"), ("secret", .str "shh")])]

/-! ## Helper lemmas -/

theorem getElem?_via_drop (l : List α) : ∀ i : Nat, l[i]? = (l.drop i).head? := by
  induction l with
  | nil => intro i; simp
  | cons x xs ih =>
    intro i
    cases i with
    | zero => simp
    | succ n =>
      rw [List.getElem?_cons_succ, List.drop_succ_cons]
      exact ih n

theorem drop_succ_tail (l : List α) : ∀ i : Nat, l.drop (i + 1) = (l.drop i).tail := by
  induction l with
  | nil => intro i; simp
  | cons x xs ih =>
    intro i
    cases i with
    | zero => simp
    | succ n =>
      rw [List.drop_succ_cons, List.drop_succ_cons]
      exact ih n

theorem filterIdxAux_eq_pairwiseDiff (eqB : α → α → Bool) (s1 : List α) :
    ∀ (s0 : List α) (i : Nat),
      filterIdxAux (fun item index => !(strictEqAt eqB s1 index item)) s0 i
        = pairwiseDiff eqB s0 (s1.drop i) := by
  intro s0
  induction s0 with
  | nil => intro i; rfl
  | cons x xs ih =>
    intro i
    cases hd : s1.drop i with
    | nil =>
      have h1 : s1[i]? = none := by rw [getElem?_via_drop, hd]; rfl
      have h2 : s1.drop (i + 1) = [] := by rw [drop_succ_tail, hd]; rfl
      have hs : strictEqAt eqB s1 i x = false := by simp [strictEqAt, h1]
      simp only [filterIdxAux]
      simp [hs, ih (i + 1), h2, pairwiseDiff]
    | cons y ys =>
      have h1 : s1[i]? = some y := by rw [getElem?_via_drop, hd]; rfl
      have h2 : s1.drop (i + 1) = ys := by rw [drop_succ_tail, hd]; rfl
      have hs : strictEqAt eqB s1 i x = eqB x y := by simp [strictEqAt, h1]
      simp only [filterIdxAux]
      cases hxy : eqB x y <;> simp [hs, hxy, ih (i + 1), h2, pairwiseDiff]

theorem compareCarts_eq_pairwiseDiff (le : α → α → Prop) [DecidableRel le]
    (eqB : α → α → Bool) (a b : List α) :
    compareCarts le eqB a b =
      if a.length = b.length then
        some (pairwiseDiff eqB (List.insertionSort le a) (List.insertionSort le b))
      else none := by
  by_cases h : a.length = b.length <;>
    simp only [compareCarts, filterIdx, h, if_true, if_false, reduceIte]
  rw [filterIdxAux_eq_pairwiseDiff]
  simp

theorem mem_of_mem_pairwiseDiff (eqB : α → α → Bool) :
    ∀ (s t : List α) (x : α), x ∈ pairwiseDiff eqB s t → x ∈ s := by
  intro s
  induction s with
  | nil => intro t x h; simp [pairwiseDiff] at h
  | cons a as ih =>
    intro t x h
    cases t with
    | nil =>
      simp only [pairwiseDiff, List.mem_cons] at h
      rcases h with h | h
      · simp [h]
      · exact List.mem_cons_of_mem _ (ih [] x h)
    | cons b bs =>
      simp only [pairwiseDiff] at h
      cases hab : eqB a b with
      | true =>
        rw [if_pos hab] at h
        exact List.mem_cons_of_mem _ (ih bs x h)
      | false =>
        rw [if_neg (by simp [hab])] at h
        rcases List.mem_cons.mp h with h | h
        · simp [h]
        · exact List.mem_cons_of_mem _ (ih bs x h)

theorem pairwiseDiff_self (eqB : α → α → Bool) (h : ∀ x, eqB x x = true) :
    ∀ s : List α, pairwiseDiff eqB s s = [] := by
  intro s
  induction s with
  | nil => rfl
  | cons a as ih => simp [pairwiseDiff, h a, ih]

theorem lexLtNat_asymm : ∀ as bs : List Nat, lexLtNat as bs = true → lexLtNat bs as = false := by
  intro as
  induction as with
  | nil =>
    intro bs h
    cases bs with
    | nil => simp [lexLtNat] at h
    | cons b bs' => simp [lexLtNat]
  | cons a as' ih =>
    intro bs h
    cases bs with
    | nil => simp [lexLtNat] at h
    | cons b bs' =>
      by_cases hab : a < b
      · simp [lexLtNat, hab, Nat.lt_asymm hab]
      · by_cases hba : b < a
        · simp [lexLtNat, hab, hba] at h
        · simp only [lexLtNat, hab, hba, if_false] at h ⊢
          exact ih bs' h

theorem lexLtNat_cotrans : ∀ as bs cs : List Nat, lexLtNat as cs = true →
    lexLtNat as bs = true ∨ lexLtNat bs cs = true := by
  intro as
  induction as with
  | nil =>
    intro bs cs h
    cases cs with
    | nil => simp [lexLtNat] at h
    | cons c cs' =>
      cases bs with
      | nil => right; simp [lexLtNat]
      | cons b bs' => left; simp [lexLtNat]
  | cons a as' ih =>
    intro bs cs h
    cases cs with
    | nil => simp [lexLtNat] at h
    | cons c cs' =>
      cases bs with
      | nil => right; simp [lexLtNat]
      | cons b bs' =>
        by_cases hac : a < c
        · by_cases hab : a < b
          · left; simp [lexLtNat, hab]
          · right
            have hbc : b < c := Nat.lt_of_le_of_lt (Nat.le_of_not_lt hab) hac
            simp [lexLtNat, hbc]
        · by_cases hca : c < a
          · simp [lexLtNat, hac, hca] at h
          · simp only [lexLtNat, hac, hca, if_false] at h
            have hacEq : a = c := Nat.le_antisymm (Nat.le_of_not_lt hca) (Nat.le_of_not_lt hac)
            by_cases hab : a < b
            · left; simp [lexLtNat, hab]
            · by_cases hba : b < a
              · right
                have hbc : b < c := hacEq ▸ hba
                simp [lexLtNat, hbc]
              · rcases ih bs' cs' h with h1 | h1
                · left; simp [lexLtNat, hab, hba, h1]
                · right
                  have hbc : ¬ b < c := hacEq ▸ hba
                  have hcb : ¬ c < b := hacEq ▸ hab
                  simp [lexLtNat, hbc, hcb, h1]

instance : IsTotal String jsStrLe := by
  constructor
  intro a b
  cases h : jsStrLtB b a with
  | false => left; exact h
  | true =>
    right
    exact lexLtNat_asymm (stringUtf16 b) (stringUtf16 a) h

instance : IsTrans String jsStrLe := by
  constructor
  intro a b c hab hbc
  have hab' : lexLtNat (stringUtf16 b) (stringUtf16 a) = false := hab
  have hbc' : lexLtNat (stringUtf16 c) (stringUtf16 b) = false := hbc
  show jsStrLtB c a = false
  cases h : jsStrLtB c a with
  | false => rfl
  | true =>
    have h' : lexLtNat (stringUtf16 c) (stringUtf16 a) = true := h
    rcases lexLtNat_cotrans (stringUtf16 c) (stringUtf16 b) (stringUtf16 a) h' with h1 | h1
    · rw [hbc'] at h1; cases h1
    · rw [hab'] at h1; cases h1

theorem mapGetField_firstField (key : String) :
    ∀ entries : List (JsVal × List (String × JsVal)),
      mapGetField key (entries.map (fun e => JsVal.obj ((key, e.1) :: e.2)))
        = .ok (entries.map Prod.fst) := by
  intro entries
  induction entries with
  | nil => rfl
  | cons e es ih =>
    simp only [List.map_cons, mapGetField, jsGetMem, lookupField, if_pos rfl, ih]
    rfl

/-! ## Claim theorems -/

/-- C1: The Set Comparator, given two identifier sequences, returns `false`
(embedded as `none`) whenever the two sequences have different lengths;
otherwise it sorts both sequences independently by natural string order
(the sorted output is a sorted permutation of its input) and returns the
collection of every element of the first sorted sequence whose same-index
counterpart in the second sorted sequence differs; in particular
`compare(["/a","/c"], ["/a","/b"])` is `["/c"]` and
`compare(["/a"], ["/a","/b"])` is `false`. -/
theorem comparatorPositionalDiff :
    (∀ a b : List String,
      compareCartsStr a b =
        if a.length = b.length then
          some (pairwiseDiff strEqB (List.insertionSort jsStrLe a)
            (List.insertionSort jsStrLe b))
        else none) ∧
    (∀ a : List String,
      (List.insertionSort jsStrLe a).Perm a ∧
        List.Sorted jsStrLe (List.insertionSort jsStrLe a)) ∧
    compareCartsStr ["/a", "/c"] ["/a", "/b"] = some ["/c"] ∧
    compareCartsStr ["/a"] ["/a", "/b"] = none := by
  refine ⟨fun a b => compareCarts_eq_pairwiseDiff jsStrLe strEqB a b,
    fun a => ⟨List.perm_insertionSort jsStrLe a, List.sorted_insertionSort jsStrLe a⟩,
    by decide, by decide⟩

/-- C2: the Auth Encoder does not satisfy the UTF-8 round-trip property for
multi-byte credentials.  `Buffer.from` re-encodes the already byte-expanded
string as UTF-8 (its default), so for key `é` and secret `x` the produced
header is `Basic w4PCqTp4`, whose base64 payload decodes (as UTF-8, split on
the first colon, per the spec's round-trip property) to the mojibake pair
`(Ã©, x)`, not `(é, x)`. -/
theorem authEncodingBreaksRoundTrip :
    keypairToAuth "é" "x" = "Basic w4PCqTp4" ∧
    specDecodeBasicAuth (keypairToAuth "é" "x") = some ("Ã©", "x") ∧
    ("Ã©", "x") ≠ (("é" : String), "x") :=
  ⟨by decide, by decide, by decide⟩

/-- C3: on any soft-failing response (fetch rejection, non-2xx status, or an
unparsable body), the Search Client and the Cart Search Client do not
propagate an exception: each catches the error, logs a line, and resolves to
`undefined` (`none`). -/
theorem softFailurePolicy (r : Response) (h : respBad r = true) :
    (getSearchIds r).1 = none ∧ (getSearchIds r).2 ≠ [] ∧
    (searchCart r).1 = none ∧ (searchCart r).2 ≠ [] := by
  cases r with
  | networkError =>
    simp [getSearchIds, searchCart, getSearchIdsInner, searchCartInner]
  | httpResponse ok body =>
    cases ok with
    | false =>
      simp [getSearchIds, searchCart, getSearchIdsInner, searchCartInner]
    | true =>
      cases body with
      | none => simp [getSearchIds, searchCart, getSearchIdsInner, searchCartInner]
      | some v => simp [respBad] at h

/-- Witness for C3 at the concrete response `badResp`. -/
theorem softFailurePolicy_witness :
    respBad badResp = true ∧
    ((getSearchIds badResp).1 = none ∧ (getSearchIds badResp).2 ≠ [] ∧
     (searchCart badResp).1 = none ∧ (searchCart badResp).2 ≠ []) :=
  ⟨by decide, softFailurePolicy badResp (by decide)⟩

/-- C4: the Set Comparator is not a true set symmetric difference: on the
equal-length inputs `["x","x"]` and `["x","y"]` (the first containing a
duplicate) it returns `["x"]`, which over-reports `x` (an element of both
sets) and under-reports `y` (the one element of the true symmetric
difference). -/
theorem comparatorNotSetSymmDiff :
    ∃ a b : List String, a.length = b.length ∧ ¬ a.Nodup ∧
      ∃ l, compareCartsStr a b = some l ∧
        (∃ x, x ∈ l ∧ x ∉ symmDiffSpec a b) ∧
        (∃ y, y ∈ symmDiffSpec a b ∧ y ∉ l) :=
  ⟨["x", "x"], ["x", "y"], by decide, by decide, ["x"], by decide,
    ⟨"x", by decide, by decide⟩, ⟨"y", by decide, by decide⟩⟩

/-- C5: for a 2xx search response whose body carries a `@graph` array of
entries, the Search Client returns exactly the sequence of each entry's
`@id` field in server-given order; in particular the body
`{"@graph":[{"@id":"/a/1"},{"@id":"/a/2"}]}` yields `["/a/1", "/a/2"]`. -/
theorem searchIdExtraction :
    (∀ entries : List (JsVal × List (String × JsVal)),
      (getSearchIds (.httpResponse true (some (.obj [("@graph",
          .arr (entries.map (fun e => JsVal.obj (("@id", e.1) :: e.2))))])))).1
        = some (.arr (entries.map Prod.fst))) ∧
    (getSearchIds (.httpResponse true (some (.obj [("@graph",
        .arr [.obj [("@id", .str "/a/1")], .obj [("@id", .str "/a/2")]])])))).1
      = some (.arr [.str "/a/1", .str "/a/2"]) := by
  constructor
  · intro entries
    simp [getSearchIds, getSearchIdsInner, jsGetMem, lookupField, jsMapGetField,
      mapGetField_firstField, Bind.bind, Except.bind, Pure.pure, Except.pure]
  · rfl

/-- C6: for a 2xx cart-update response, the Cart Writer returns the
`elements` field of the first entry of the response's `@graph` array; in
particular receiving back `{"@graph":[{"elements":["/x/1","/x/2"]}]}` yields
`["/x/1","/x/2"]`. -/
theorem cartWriteExtraction :
    (∀ (fields : List (String × JsVal)) (rest : List JsVal),
      (writeCart (.httpResponse true (some (.obj [("@graph",
          .arr (JsVal.obj fields :: rest))])))).1
        = some (lookupField fields "elements")) ∧
    (writeCart (.httpResponse true (some (.obj [("@graph",
        .arr [.obj [("elements", .arr [.str "/x/1", .str "/x/2"])]])])))).1
      = some (.arr [.str "/x/1", .str "/x/2"]) := by
  constructor
  · intro fields rest
    simp [writeCart, writeCartInner, jsGetMem, jsIndexZero, lookupField, Bind.bind, Except.bind]
  · rfl

/-- C7: in a run whose earlier steps succeed but whose Cart Reader resolves
to `undefined` (soft failure), the Orchestrator's unguarded assignment
`cart.elements = itemIds` raises an unhandled `TypeError` that aborts the
process. -/
theorem mainAbortsOnMissingCart (env : RunEnv) (kd entry sv kv scv : JsVal)
    (h1 : readKeyfile env.keyfile = .ok kd)
    (h2 : jsGetMem kd env.progKey = .ok entry)
    (h3 : jsGetMem entry "server" = .ok sv)
    (h4 : jsGetMem entry "key" = .ok kv)
    (h5 : jsGetMem entry "secret" = .ok scv)
    (h6 : (getWriteableCartObject env.cartReadResp).1 = none) :
    mainRun env = .error "TypeError: cannot set properties of undefined" := by
  simp [mainRun, h1, h2, h3, h4, h5, h6, jsSetMem, Bind.bind, Except.bind]

/-- Witness for C7 at the concrete environment `envCartMissing`. -/
theorem mainAbortsOnMissingCart_witness :
    mainRun envCartMissing = .error "TypeError: cannot set properties of undefined" :=
  mainAbortsOnMissingCart envCartMissing goodKeyfileVal
    (.obj [("server", .str "https://test.encodedcc.org"), ("key", .str "ABC"),
      ("secret", .str "shh")])
    (.str "https://test.encodedcc.org") (.str "ABC") (.str "shh")
    rfl rfl rfl rfl rfl rfl

/-- C8: a keyfile whose contents are not valid JSON makes the Credential
Loader raise a fatal parse error that propagates through `main` (no soft
result); a keyfile that parses but lacks the selected environment name loads
fine, and the run fails only at the caller's dereference of the missing
entry. -/
theorem keyfileFailureModes :
    (∀ env : RunEnv, env.keyfile = .parseError →
      mainRun env = .error "SyntaxError: unexpected token in JSON") ∧
    (∀ (env : RunEnv) (fields : List (String × JsVal)),
      env.keyfile = .parsed (.obj fields) →
      lookupField fields env.progKey = .undefined →
      readKeyfile env.keyfile = .ok (.obj fields) ∧
      mainRun env = .error "TypeError: cannot read properties of undefined") := by
  constructor
  · intro env h
    simp [mainRun, readKeyfile, h, Bind.bind, Except.bind]
  · intro env fields h hl
    refine ⟨by simp [readKeyfile, h], ?_⟩
    simp [mainRun, readKeyfile, h, jsGetMem, hl, Bind.bind, Except.bind]

/-- Witness for C8 at the concrete environments `envKeyfileUnparsable` and
`envKeyAbsent`. -/
theorem keyfileFailureModes_witness :
    mainRun envKeyfileUnparsable = .error "SyntaxError: unexpected token in JSON" ∧
    (readKeyfile envKeyAbsent.keyfile = .ok (.obj prodKeyfileFields) ∧
     mainRun envKeyAbsent = .error "TypeError: cannot read properties of undefined") :=
  ⟨keyfileFailureModes.1 envKeyfileUnparsable rfl,
   keyfileFailureModes.2 envKeyAbsent prodKeyfileFields rfl rfl⟩

/-- C9: every identifier the Set Comparator returns is drawn from the first
input sequence — never from the second alone — so the reported differences
depend on argument order (witnessed by a pair on which swapping the
arguments changes the result). -/
theorem comparatorDrawsFromFirst :
    (∀ (a b l : List String), compareCartsStr a b = some l → ∀ x ∈ l, x ∈ a) ∧
    (∃ a b : List String, compareCartsStr a b ≠ compareCartsStr b a) := by
  constructor
  · intro a b l h x hx
    rw [compareCartsStr, compareCarts_eq_pairwiseDiff] at h
    by_cases hlen : a.length = b.length
    · rw [if_pos hlen] at h
      injection h with h
      subst h
      have hx0 := mem_of_mem_pairwiseDiff strEqB _ _ x hx
      exact (List.mem_insertionSort jsStrLe).mp hx0
    · rw [if_neg hlen] at h
      cases h
  · exact ⟨["/a", "/c"], ["/a", "/b"], by decide⟩

/-- Witness for C9 at a concrete pair of equal-length inputs. -/
theorem comparatorDrawsFromFirst_witness :
    compareCartsStr ["/b", "/z"] ["/b", "/c"] = some ["/z"] ∧
    (∀ x ∈ ["/z"], x ∈ (["/b", "/z"] : List String)) :=
  ⟨by decide, comparatorDrawsFromFirst.1 ["/b", "/z"] ["/b", "/c"] ["/z"] (by decide)⟩

/-- C10: the Set Comparator is reflexive: for every identifier sequence `a`,
duplicates included, `compare(a, a)` returns the empty collection — never
`false` and never a non-empty collection. -/
theorem comparatorReflexive : ∀ a : List String, compareCartsStr a a = some [] := by
  intro a
  rw [compareCartsStr, compareCarts_eq_pairwiseDiff, if_pos rfl,
    pairwiseDiff_self strEqB (fun x => by simp [strEqB])]
